import Mathlib

/-!
Verification of the zowe-client-go-sdk core against its specification.

The Go sources are shallowly embedded: pure helpers become Lean functions,
HTTP-issuing operations become functions that return the list of HTTP
requests they would issue (their trace) together with the value or error
they produce, given an oracle for the transport.  Strings are modelled as
Lean `String`/`List Char`; Go byte lengths are recovered through an explicit
UTF-8 encoder where the distinction matters.  Go `int` is modelled as `Int`.
-/

namespace ZoweSDK

/-! ## Generic string helpers (models of Go `strings` operations)

`strStarts s pat` models `strings.HasPrefix(s, pat)`, `strContains s pat`
models `strings.Contains(s, pat)` and `strEnds s pat` models
`strings.HasSuffix(s, pat)`, all on rune (Char) lists; the patterns used in
this repository are ASCII, where rune-wise and byte-wise matching agree. -/

def strStarts : List Char → List Char → Bool
  | _, [] => true
  | [], _ :: _ => false
  | c :: cs, p :: ps => c == p && strStarts cs ps

def strContains (s pat : List Char) : Bool :=
  strStarts s pat ||
    match s with
    | [] => false
    | _ :: cs => strContains cs pat

def strEnds (s pat : List Char) : Bool :=
  strStarts s.reverse pat.reverse

/-- Model of Go map assignment `m[k] = v` on an association list with unique
keys: any existing entry for `k` is replaced. -/
def setKV (l : List (String × String)) (k v : String) : List (String × String) :=
  l.filter (fun kv => kv.1 ≠ k) ++ [(k, v)]

/-- UTF-8 encoding of one scalar value, byte by byte; models how Go strings
store a rune. -/
def utf8Bytes (c : Char) : List Nat :=
  let n := c.toNat
  if n < 128 then [n]
  else if n < 2048 then [192 + n / 64, 128 + n % 64]
  else if n < 65536 then [224 + n / 4096, 128 + (n / 64) % 64, 128 + n % 64]
  else [240 + n / 262144, 128 + (n / 4096) % 64, 128 + (n / 64) % 64, 128 + n % 64]

/-- Model of Go `len(s)` on a string: the number of UTF-8 bytes. -/
def goLen (s : List Char) : Nat :=
  (s.flatMap utf8Bytes).length

/-! ## Profile and Session (src/pkg/profile/session.go, src/unnamed/part_004)

The Go `http.Client` is represented by the two pieces of configuration
`NewSession` actually sets: the TLS `InsecureSkipVerify` flag and the
30-second timeout. -/

structure ZOSMFProfile where
  name : String
  host : String
  port : Int
  user : String
  password : String
  protocol : String
  basePath : String
  rejectUnauthorized : Bool
deriving DecidableEq

structure HTTPClient where
  insecureSkipVerify : Bool
  timeoutSeconds : Nat
deriving DecidableEq

structure Session where
  profile : ZOSMFProfile
  host : String
  port : Int
  user : String
  password : String
  baseURL : String
  httpClient : HTTPClient
  headers : List (String × String)
deriving DecidableEq

/-- Default headers set by `NewSession`. -/
def defaultHeaders : List (String × String) :=
  [("Content-Type", "application/json"), ("Accept", "application/json")]

/-- Embedding of `(*ZOSMFProfile).NewSession` from src/pkg/profile/session.go:
TLS config from `rejectUnauthorized`, 30s client timeout, protocol defaulted
to "https" when empty then forced to "http" on port 80 or 8080, base URL
assembled from protocol, host, conditional `:port` and verbatim base path. -/
def ZOSMFProfile.NewSession (p : ZOSMFProfile) : Except String Session :=
  let client : HTTPClient := { insecureSkipVerify := !p.rejectUnauthorized, timeoutSeconds := 30 }
  let protocol0 : String := if p.protocol = "" then "https" else p.protocol
  let protocol : String := if p.port = 80 then "http" else if p.port = 8080 then "http" else protocol0
  let baseURL0 : String := protocol ++ "://" ++ p.host
  let baseURL1 : String :=
    if p.port ≠ 0 ∧ p.port ≠ 80 ∧ p.port ≠ 443 then baseURL0 ++ ":" ++ toString p.port else baseURL0
  let baseURL : String := if p.basePath ≠ "" then baseURL1 ++ p.basePath else baseURL1
  Except.ok
    { profile := p
      host := p.host
      port := p.port
      user := p.user
      password := p.password
      baseURL := baseURL
      httpClient := client
      headers := defaultHeaders }

/-- Embedding of `(*Session).AddHeader`. -/
def Session.AddHeader (s : Session) (key value : String) : Session :=
  { s with headers := setKV s.headers key value }

/-- Embedding of `(*Session).RemoveHeader`. -/
def Session.RemoveHeader (s : Session) (key : String) : Session :=
  { s with headers := s.headers.filter (fun kv => kv.1 ≠ key) }

/-- One header mutation, as performed by callers of the session API. -/
inductive HeaderOp where
  | add (key value : String)
  | remove (key : String)

/-- Applies a sequence of `AddHeader`/`RemoveHeader` calls to a session. -/
def applyHeaderOps (s : Session) : List HeaderOp → Session
  | [] => s
  | HeaderOp.add k v :: rest => applyHeaderOps (s.AddHeader k v) rest
  | HeaderOp.remove k :: rest => applyHeaderOps (s.RemoveHeader k) rest

/-! Specification-side rendering of the base URL, written from the spec's
words (spec.md section 4.1): scheme forced to "http" on port 80/8080,
otherwise "https" or the explicit protocol; `:port` appended exactly when
port is nonzero and not 80 and not 443; base path appended verbatim. -/

def specScheme (p : ZOSMFProfile) : String :=
  if p.port = 80 ∨ p.port = 8080 then "http"
  else if p.protocol = "" then "https" else p.protocol

def specPortSuffix (p : ZOSMFProfile) : String :=
  if p.port ≠ 0 ∧ p.port ≠ 80 ∧ p.port ≠ 443 then ":" ++ toString p.port else ""

def specBaseURL (p : ZOSMFProfile) : String :=
  specScheme p ++ "://" ++ p.host ++ specPortSuffix p ++ p.basePath

/-! ## HTTP requests and responses

An operation of a resource manager is embedded as a function that, given an
oracle `exec` for the transport, returns the list of HTTP requests it issues
together with its result.  The URL is kept structured: `url` is the base URL
plus path, and `query` holds the query parameters that Go would append as
`"?" + params.Encode()`.  JSON request bodies are kept structured as `JVal`;
Go marshals maps with the same key/value content. -/

inductive JVal where
  | str (s : String)
  | obj (fields : List (String × JVal))

structure HTTPRequest where
  method : String
  url : String
  query : List (String × String)
  headers : List (String × String)
  body : JVal

structure HTTPResponse where
  statusCode : Nat
  body : String
deriving DecidableEq

/-! ## Jobs: completion vocabulary and the polling loop
(src/pkg/jobs/convenience.go) -/

/-- The fixed completion vocabulary of `isJobComplete`. -/
def completedStatuses : List (List Char) :=
  ["OUTPUT".data, "CC 0000".data, "CC 0001".data, "CC 0002".data, "CC 0003".data,
    "CC 0004".data, "ABEND".data]

/-- ASCII uppercasing of one character (codes 97-122 map to 65-90), the
restriction of Go `strings.ToUpper` to the ASCII range; every character of
the completion vocabulary is ASCII. -/
def goToUpperChar (c : Char) : Char :=
  if 97 ≤ c.toNat ∧ c.toNat ≤ 122 then Char.ofNat (c.toNat - 32) else c

/-- Model of `strings.ToUpper`. -/
def goToUpper (s : List Char) : List Char :=
  s.map goToUpperChar

/-- Embedding of `isJobComplete` from src/pkg/jobs/convenience.go: uppercase
the status, then test substring containment against each completed status. -/
def isJobComplete (status : List Char) : Bool :=
  completedStatuses.any (fun completedStatus => strContains (goToUpper status) completedStatus)

/-- One iteration's view of the environment inside `WaitForJobCompletion`:
the result `GetJobStatus` would return at that iteration. -/
inductive PollStep where
  | err (msg : String)
  | ok (status : List Char)

/-- Outcome of the polling loop. -/
inductive WaitOutcome where
  | timedOut
  | statusError (msg : String)
  | completed (status : List Char)
  | exhausted
deriving DecidableEq

/-- Embedding of `WaitForJobCompletion` from src/pkg/jobs/convenience.go.
The loop is driven by a trace: entry `(elapsed, step)` gives the value of
`time.Since(startTime)` at the top of the iteration (monotone in practice,
advanced by the `time.Sleep(pollInterval)` between polls and by the polls
themselves) and the result of the `GetJobStatus` call of that iteration.
Each iteration first compares elapsed time to the timeout, then polls,
aborts on a poll error, returns a completed status, and otherwise sleeps and
loops.  `exhausted` means the trace ended with the Go loop still running. -/
def waitForJobCompletion (timeout : Nat) : List (Nat × PollStep) → WaitOutcome
  | [] => WaitOutcome.exhausted
  | (elapsed, step) :: rest =>
    if timeout < elapsed then WaitOutcome.timedOut
    else
      match step with
      | PollStep.err m => WaitOutcome.statusError m
      | PollStep.ok status =>
        if isJobComplete status then WaitOutcome.completed status
        else waitForJobCompletion timeout rest

/-! ## Jobs: SubmitJob (src/unnamed/part_002, lines 271-344)

Field names of `SubmitJobRequest` are those used throughout
src/pkg/jobs/convenience.go and src/unnamed/part_002. -/

def JobsEndpoint : String := "/restjobs/jobs"

structure SubmitJobRequest where
  jobStatement : String
  jobDataSet : String
  jobLocalFile : String
  volume : String
  directory : String
  extension : String
deriving DecidableEq

/-- The request body built by `SubmitJob`, in source order: `none` when no
job source is set, otherwise only the fields relevant to the chosen source. -/
def buildSubmitBody (r : SubmitJobRequest) : Option (List (String × String)) :=
  if r.jobStatement ≠ "" then
    some [("jobStatement", r.jobStatement)]
  else if r.jobDataSet ≠ "" then
    some ([("jobDataSet", r.jobDataSet)] ++
      (if r.volume ≠ "" then [("volume", r.volume)] else []))
  else if r.jobLocalFile ≠ "" then
    some ([("jobLocalFile", r.jobLocalFile)] ++
      (if r.directory ≠ "" then [("directory", r.directory)] else []) ++
      (if r.extension ≠ "" then [("extension", r.extension)] else []))
  else none

/-- Mirrors the negated status check of `SubmitJob`:
`resp.StatusCode != 201 && resp.StatusCode != 200 && resp.StatusCode != 202`
guards the error branch, so success is its negation. -/
def submitStatusSuccess (code : Nat) : Bool :=
  !(code != 201 && code != 200 && code != 202)

/-- Embedding of `SubmitJob` from src/unnamed/part_002: absent job source
fails before issuing anything; otherwise one PUT to `{base}/restjobs/jobs`
with the source-specific body, accepted on status 200/201/202.  The decoded
`SubmitJobResponse` is abstracted as the raw response body. -/
def SubmitJob (s : Session) (exec : HTTPRequest → HTTPResponse) (r : SubmitJobRequest) :
    List HTTPRequest × Except String String :=
  match buildSubmitBody r with
  | none => ([], Except.error "no job source specified (jobStatement, jobDataSet, or jobLocalFile)")
  | some body =>
    let req : HTTPRequest :=
      { method := "PUT"
        url := s.baseURL ++ JobsEndpoint
        query := []
        headers := s.headers
        body := JVal.obj (body.map (fun kv => (kv.1, JVal.str kv.2))) }
    let resp := exec req
    ([req],
      if submitStatusSuccess resp.statusCode then Except.ok resp.body
      else Except.error ("API request failed with status " ++ toString resp.statusCode ++ ": " ++ resp.body))

/-! ## Jobs: ListJobs response decoding (src/unnamed/part_002, lines 107-123)

Modelled from the spec: the `Job`/`JobList` struct declarations themselves are
not under src/ (only their uses are); per the spec, `JobList` serializes as a
JSON object with a `jobs` field holding the job array.  `JobsBody` abstracts
the decode-relevant shape of an HTTP 200 response body together with its raw
text; the two `unmarshal` functions reproduce how Go `encoding/json` treats
each shape (an object into the `JobList` struct succeeds, with `Jobs` empty
when the `jobs` field is absent; an array into the struct fails; an array
into `[]Job` succeeds; anything else fails). -/

structure Job where
  jobID : String
  jobName : String
  owner : String
  status : String
deriving DecidableEq

structure JobList where
  jobs : List Job
deriving DecidableEq

inductive JobsBody where
  | objWithJobs (raw : String) (jobs : List Job)
  | objNoJobsField (raw : String)
  | arrBody (raw : String) (jobs : List Job)
  | malformed (raw : String)

/-- Raw text of the response body. -/
def JobsBody.raw : JobsBody → String
  | JobsBody.objWithJobs r _ => r
  | JobsBody.objNoJobsField r => r
  | JobsBody.arrBody r _ => r
  | JobsBody.malformed r => r

/-- Go `json.Unmarshal(bodyBytes, &jobList)` where `jobList : JobList`. -/
def unmarshalJobList : JobsBody → Option JobList
  | JobsBody.objWithJobs _ js => some { jobs := js }
  | JobsBody.objNoJobsField _ => some { jobs := [] }
  | JobsBody.arrBody _ _ => none
  | JobsBody.malformed _ => none

/-- Go `json.Unmarshal(bodyBytes, &jobsArr)` where `jobsArr : []Job`. -/
def unmarshalJobArray : JobsBody → Option (List Job)
  | JobsBody.arrBody _ js => some js
  | _ => none

/-- Embedding of the response-decoding tail of `ListJobs`
(src/unnamed/part_002 lines 107-123): first try the `JobList` object shape,
accept it only if it decoded some jobs or the raw body is literally "\x7b\x7d",
otherwise fall back to the bare-array shape, and fail if neither applies. -/
def listJobsDecode (b : JobsBody) : Except String JobList :=
  match unmarshalJobList b with
  | some jobList =>
    if jobList.jobs.length > 0 || b.raw == "\x7b\x7d" then Except.ok jobList
    else
      match unmarshalJobArray b with
      | some jobsArr => Except.ok { jobs := jobsArr }
      | none => Except.error ("failed to decode response: " ++ b.raw)
  | none =>
    match unmarshalJobArray b with
    | some jobsArr => Except.ok { jobs := jobsArr }
    | none => Except.error ("failed to decode response: " ++ b.raw)

/-! ## Jobs: GetJobOutput (src/pkg/jobs/convenience.go, lines 140-159) -/

structure SpoolFile where
  id : Int
  ddName : String
deriving DecidableEq

/-- Embedding of `GetJobOutput`: the results of the two underlying calls are
passed in as oracles (`spoolFilesResult` for `GetSpoolFiles(correlator)`,
`contentResult id` for `GetSpoolFileContent(correlator, id)`).  The Go map
`output` is modelled by `setKV` accumulation in iteration order. -/
def GetJobOutput (spoolFilesResult : Except String (List SpoolFile))
    (contentResult : Int → Except String String) :
    Except String (List (String × String)) :=
  match spoolFilesResult with
  | Except.error e => Except.error ("failed to get spool files: " ++ e)
  | Except.ok spoolFiles =>
    Except.ok (spoolFiles.foldl
      (fun output spoolFile =>
        match contentResult spoolFile.id with
        | Except.error _ => output
        | Except.ok content => setKV output spoolFile.ddName content)
      [])

/-! ## Datasets: name validation (src/unnamed/part_000, lines 170-202)

The regular expression of `ValidateDatasetName` is
`^[A-Z@#$][A-Z0-9@#$.-]*$`; its two character classes are embedded as the
predicates below (ASCII codes: A-Z = 65-90, digits = 48-57, @ = 64, # = 35,
$ = 36, . = 46, - = 45). -/

def isFirstChar (c : Char) : Bool :=
  (65 ≤ c.toNat && c.toNat ≤ 90) || c == '@' || c == '#' || c == '$'

def isRestChar (c : Char) : Bool :=
  (65 ≤ c.toNat && c.toNat ≤ 90) || (48 ≤ c.toNat && c.toNat ≤ 57) ||
    c == '@' || c == '#' || c == '$' || c == '.' || c == '-'

/-- Whether `^[A-Z@#$][A-Z0-9@#$.-]*$` matches the whole name. -/
def matchesNamePattern : List Char → Bool
  | [] => false
  | c :: cs => isFirstChar c && cs.all isRestChar

/-- Embedding of `ValidateDatasetName` from src/unnamed/part_000, on the
name's character list: empty check, Go byte-length check, regular-expression
check, then the consecutive-period, leading/trailing-period and
consecutive-hyphen checks, in source order. -/
def validateDatasetNameChars (name : List Char) : Except String Unit :=
  if name = [] then Except.error "dataset name cannot be empty"
  else if 44 < goLen name then Except.error "dataset name cannot exceed 44 characters"
  else if ¬ matchesNamePattern name = true then Except.error "dataset name contains invalid characters"
  else if strContains name ['.', '.'] then Except.error "dataset name cannot contain consecutive periods"
  else if strStarts name ['.'] || strEnds name ['.'] then
    Except.error "dataset name cannot start or end with a period"
  else if strContains name ['-', '-'] then Except.error "dataset name cannot contain consecutive hyphens"
  else Except.ok ()

/-- `ValidateDatasetName` on a `String`. -/
def ValidateDatasetName (name : String) : Except String Unit :=
  validateDatasetNameChars name.data

/-! Specification-side predicate for dataset-name validity, written from the
spec's words: non-empty, at most 44 characters, first character in
\x7bA-Z,@,#,$\x7d, subsequent characters in \x7bA-Z,0-9,@,#,$,-,.\x7d, no
consecutive periods, no consecutive hyphens, and neither a leading nor a
trailing period. -/

def NoDoubledChar (c : Char) (s : List Char) : Prop :=
  ∀ p ∈ s.zip s.tail, ¬ (p.1 = c ∧ p.2 = c)

instance (c : Char) (s : List Char) : Decidable (NoDoubledChar c s) := by
  unfold NoDoubledChar
  infer_instance

def DatasetNameValid (s : List Char) : Prop :=
  s ≠ [] ∧ s.length ≤ 44 ∧
    (∀ c, s.head? = some c → isFirstChar c = true) ∧
    (∀ c ∈ s.tail, isRestChar c = true) ∧
    NoDoubledChar '.' s ∧ NoDoubledChar '-' s ∧
    s.head? ≠ some '.' ∧ s.getLast? ≠ some '.'

instance (s : List Char) : Decidable (DatasetNameValid s) := by
  unfold DatasetNameValid
  exact instDecidableAnd

/-! ## Datasets: endpoints, path escaping, ListDatasets and CopyDataset
(src/unnamed/part_000, lines 985-1663 — the current dataset manager; an
older manager with a different copy design appears at lines 389-983 of the
same pack but is superseded by this one) -/

def DatasetsEndpoint : String := "/restfiles/ds"

/-- Hexadecimal digit, uppercase, as used by Go's percent-escaping. -/
def hexUpper (n : Nat) : Char :=
  "0123456789ABCDEF".data.getD n ' '

/-- Bytes Go `url.PathEscape` leaves unescaped in a path segment:
alphanumerics, `- _ . ~`, and the sub-delims `$ & + : = @` (ASCII codes as
noted); everything else becomes `%XX`. -/
def pathByteUnescaped (b : Nat) : Bool :=
  (65 ≤ b && b ≤ 90) || (97 ≤ b && b ≤ 122) || (48 ≤ b && b ≤ 57) ||
    b == 45 || b == 95 || b == 46 || b == 126 ||
    b == 36 || b == 38 || b == 43 || b == 58 || b == 61 || b == 64

/-- Model of Go `url.PathEscape`: percent-escape each UTF-8 byte that is not
allowed to appear literally in a path segment. -/
def pathEscape (s : String) : String :=
  String.mk ((s.data.flatMap utf8Bytes).flatMap
    (fun b => if pathByteUnescaped b then [Char.ofNat b] else ['%', hexUpper (b / 16), hexUpper (b % 16)]))

structure DatasetFilter where
  name : String
  dsType : String
  volume : String
  owner : String
  limit : Int
deriving DecidableEq

/-- Embedding of `ListDatasets` from src/unnamed/part_000 (lines 1035-1122):
query parameters `dslevel`/`volser`/`start` from the filter, with the default
`dslevel = {user}.*` when neither a name pattern nor a volume is supplied;
the row limit goes into the `X-IBM-Max-Items` header ("0" meaning all), and
`X-IBM-Attributes` is set to "base".  The decoded `DatasetList` is abstracted
as the raw response body. -/
def ListDatasets (s : Session) (exec : HTTPRequest → HTTPResponse) (filter : Option DatasetFilter) :
    List HTTPRequest × Except String String :=
  let fromFilter : List (String × String) :=
    match filter with
    | none => []
    | some f =>
      (if f.name ≠ "" then [("dslevel", f.name)] else []) ++
        (if f.volume ≠ "" then [("volser", f.volume)] else []) ++
        (if f.owner ≠ "" then [("start", f.owner)] else [])
  let hasRequiredParam : Bool :=
    match filter with
    | none => false
    | some f => f.name ≠ "" || f.volume ≠ ""
  let params : List (String × String) :=
    if hasRequiredParam then fromFilter else fromFilter ++ [("dslevel", s.user ++ ".*")]
  let maxItems : String :=
    match filter with
    | some f => if 0 < f.limit then toString f.limit else "0"
    | none => "0"
  let headers : List (String × String) :=
    setKV (setKV s.headers "X-IBM-Max-Items" maxItems) "X-IBM-Attributes" "base"
  let req : HTTPRequest :=
    { method := "GET"
      url := s.baseURL ++ DatasetsEndpoint
      query := params
      headers := headers
      body := JVal.obj [] }
  let resp := exec req
  ([req],
    if resp.statusCode = 200 then Except.ok resp.body
    else Except.error ("API request failed with status " ++ toString resp.statusCode ++ ": " ++ resp.body))

/-- Embedding of `CopyDataset` from src/unnamed/part_000 (lines 1556-1602):
one PUT to `{base}/restfiles/ds/{escaped target}` whose JSON body carries the
`"request": "copy"` discriminator and the source dataset under
`"from-dataset": \x7b"dsn": source\x7d`, accepted on status 200/201. -/
def CopyDataset (s : Session) (exec : HTTPRequest → HTTPResponse) (sourceName targetName : String) :
    List HTTPRequest × Except String Unit :=
  let req : HTTPRequest :=
    { method := "PUT"
      url := s.baseURL ++ DatasetsEndpoint ++ "/" ++ pathEscape targetName
      query := []
      headers := setKV s.headers "Content-Type" "application/json"
      body := JVal.obj [("request", JVal.str "copy"),
        ("from-dataset", JVal.obj [("dsn", JVal.str sourceName)])] }
  let resp := exec req
  ([req],
    if resp.statusCode = 201 ∨ resp.statusCode = 200 then Except.ok ()
    else Except.error ("API request failed with status " ++ toString resp.statusCode ++ ": " ++ resp.body))

/-! ## Helper lemmas -/

theorem toNat_ofNat_valid (n : Nat) (h : n.isValidChar) : (Char.ofNat n).toNat = n := by
  unfold Char.ofNat
  simp [h]
  rfl

theorem goToUpperChar_idem (c : Char) : goToUpperChar (goToUpperChar c) = goToUpperChar c := by
  by_cases h : 97 ≤ c.toNat ∧ c.toNat ≤ 122
  · have hv : (c.toNat - 32).isValidChar := Or.inl (by omega)
    have ht : (Char.ofNat (c.toNat - 32)).toNat = c.toNat - 32 := toNat_ofNat_valid _ hv
    have h1 : goToUpperChar c = Char.ofNat (c.toNat - 32) := by
      unfold goToUpperChar
      rw [if_pos h]
    rw [h1]
    unfold goToUpperChar
    rw [ht, if_neg (by omega)]
  · have h1 : goToUpperChar c = c := by
      unfold goToUpperChar
      rw [if_neg h]
    rw [h1, h1]

theorem goToUpper_idem (s : List Char) : goToUpper (goToUpper s) = goToUpper s := by
  unfold goToUpper
  rw [List.map_map]
  exact List.map_congr_left (fun c _ => goToUpperChar_idem c)

theorem mem_setKV (l : List (String × String)) (k v : String) (kv : String × String)
    (h : kv ∈ setKV l k v) : kv ∈ l ∨ kv = (k, v) := by
  unfold setKV at h
  rcases List.mem_append.mp h with h' | h'
  · exact Or.inl (List.mem_of_mem_filter h')
  · simp at h'
    exact Or.inr (by simp [h'])

theorem lookup_filter_ne (l : List (String × String)) (k k' : String) (h : k ≠ k') :
    (l.filter (fun kv => kv.1 ≠ k')).lookup k = l.lookup k := by
  have hk : (k == k') = false := beq_eq_false_iff_ne.mpr h
  induction l with
  | nil => rfl
  | cons a as ih =>
    by_cases ha : a.1 = k'
    · simp only [List.filter_cons, ha, ne_eq, not_true_eq_false, decide_False, Bool.false_eq_true,
        if_false, List.lookup, hk]
      exact ih
    · cases hka : (k == a.1) with
      | false =>
        simp only [List.filter_cons, ne_eq, ha, not_false_eq_true, decide_True, if_true,
          List.lookup, hka]
        exact ih
      | true =>
        simp only [List.filter_cons, ne_eq, ha, not_false_eq_true, decide_True, if_true,
          List.lookup, hka]

theorem lookup_filter_self (l : List (String × String)) (k : String) :
    (l.filter (fun kv => kv.1 ≠ k)).lookup k = none := by
  induction l with
  | nil => rfl
  | cons a as ih =>
    by_cases ha : a.1 = k
    · simp only [List.filter_cons, ha, ne_eq, not_true_eq_false, decide_False, Bool.false_eq_true,
        if_false]
      exact ih
    · have hk : (k == a.1) = false := beq_eq_false_iff_ne.mpr (fun hc => ha hc.symm)
      simp only [List.filter_cons, ne_eq, ha, not_false_eq_true, decide_True, if_true,
        List.lookup, hk]
      exact ih

theorem lookup_setKV_self (l : List (String × String)) (k v : String) :
    (setKV l k v).lookup k = some v := by
  unfold setKV
  rw [List.lookup_append, lookup_filter_self]
  simp [List.lookup]

theorem lookup_setKV_ne (l : List (String × String)) (k k' v : String) (h : k ≠ k') :
    (setKV l k' v).lookup k = l.lookup k := by
  unfold setKV
  rw [List.lookup_append, lookup_filter_ne l k k' h]
  cases hl : l.lookup k with
  | some w => rfl
  | none =>
    have hk : (k == k') = false := beq_eq_false_iff_ne.mpr h
    simp [List.lookup, hk]

theorem strStarts_single (s : List Char) (c : Char) :
    strStarts s [c] = true ↔ s.head? = some c := by
  cases s with
  | nil => simp [strStarts]
  | cons a as =>
    simp only [strStarts, List.head?_cons, Option.some.injEq]
    cases as <;> simp [strStarts, beq_iff_eq]

theorem strEnds_single (s : List Char) (c : Char) :
    strEnds s [c] = true ↔ s.getLast? = some c := by
  unfold strEnds
  rw [show ([c] : List Char).reverse = [c] from rfl, strStarts_single, List.head?_reverse]

theorem strContains_doubled (c : Char) (s : List Char) :
    strContains s [c, c] = true ↔ ∃ p ∈ s.zip s.tail, p.1 = c ∧ p.2 = c := by
  induction s with
  | nil => simp [strContains, strStarts]
  | cons a as ih =>
    cases as with
    | nil => simp [strContains, strStarts]
    | cons b bs =>
      rw [show strContains (a :: b :: bs) [c, c] =
          (strStarts (a :: b :: bs) [c, c] || strContains (b :: bs) [c, c]) from rfl]
      simp only [strStarts, Bool.or_eq_true, Bool.and_eq_true, beq_iff_eq, ih]
      constructor
      · rintro (⟨hac, hbc, -⟩ | ⟨p, hp, h1, h2⟩)
        · exact ⟨(a, b), by simp, hac, hbc⟩
        · exact ⟨p, by simp [List.mem_cons]; right; simpa using hp, h1, h2⟩
      · rintro ⟨p, hp, h1, h2⟩
        rcases List.mem_cons.mp (by simpa using hp) with hph | hph
        · left
          refine ⟨?_, ?_, ?_⟩
          · rw [show p.1 = a from by rw [hph]] at h1
            exact h1
          · rw [show p.2 = b from by rw [hph]] at h2
            exact h2
          · cases bs <;> simp [strStarts]
        · right
          exact ⟨p, by simpa using hph, h1, h2⟩

theorem isFirstChar_lt_128 (c : Char) (h : isFirstChar c = true) : c.toNat < 128 := by
  unfold isFirstChar at h
  simp only [Bool.or_eq_true, Bool.and_eq_true, decide_eq_true_eq, beq_iff_eq] at h
  rcases h with ((⟨h1, h2⟩ | h) | h) | h
  · omega
  all_goals subst h; decide

theorem isRestChar_lt_128 (c : Char) (h : isRestChar c = true) : c.toNat < 128 := by
  unfold isRestChar at h
  simp only [Bool.or_eq_true, Bool.and_eq_true, decide_eq_true_eq, beq_iff_eq] at h
  rcases h with (((((⟨h1, h2⟩ | ⟨h1, h2⟩) | h) | h) | h) | h) | h
  · omega
  · omega
  all_goals subst h; decide

theorem utf8Bytes_ascii (c : Char) (h : c.toNat < 128) : utf8Bytes c = [c.toNat] := by
  unfold utf8Bytes
  simp [h]

theorem goLen_ascii (s : List Char) (h : ∀ c ∈ s, c.toNat < 128) : goLen s = s.length := by
  induction s with
  | nil => rfl
  | cons a as ih =>
    have ha : utf8Bytes a = [a.toNat] := utf8Bytes_ascii a (h a (by simp))
    have has : goLen as = as.length := ih (fun c hc => h c (by simp [hc]))
    have hgoal : goLen (a :: as) = 1 + goLen as := by
      simp [goLen, List.flatMap_cons, ha]
      omega
    rw [hgoal, has, List.length_cons]
    omega

theorem matchesNamePattern_iff (s : List Char) :
    matchesNamePattern s = true ↔
      (s ≠ [] ∧ (∀ c, s.head? = some c → isFirstChar c = true) ∧
        ∀ c ∈ s.tail, isRestChar c = true) := by
  cases s with
  | nil => simp [matchesNamePattern]
  | cons a as =>
    simp [matchesNamePattern, List.all_eq_true, Bool.and_eq_true]

theorem getJobOutput_fold_mem (contentResult : Int → Except String String) :
    ∀ (files : List SpoolFile) (acc : List (String × String)) (kv : String × String),
      kv ∈ files.foldl (fun output f =>
        match contentResult f.id with
        | Except.error _ => output
        | Except.ok content => setKV output f.ddName content) acc →
      kv ∈ acc ∨ ∃ f ∈ files, f.ddName = kv.1 ∧ contentResult f.id = Except.ok kv.2 := by
  intro files
  induction files with
  | nil =>
    intro acc kv h
    exact Or.inl h
  | cons f fs ih =>
    intro acc kv h
    rw [List.foldl_cons] at h
    cases hc : contentResult f.id with
    | error e =>
      rw [hc] at h
      rcases ih _ kv h with h' | ⟨g, hg, h1, h2⟩
      · exact Or.inl h'
      · exact Or.inr ⟨g, by simp [hg], h1, h2⟩
    | ok content =>
      rw [hc] at h
      rcases ih _ kv h with h' | ⟨g, hg, h1, h2⟩
      · rcases mem_setKV _ _ _ _ h' with h'' | h''
        · exact Or.inl h''
        · subst h''
          exact Or.inr ⟨f, by simp, rfl, hc⟩
      · exact Or.inr ⟨g, by simp [hg], h1, h2⟩

/-! ## Claim theorems -/

/-- Claim C2: `WaitForJobCompletion` compares monotonic elapsed time against
the timeout before each poll and fails with a timeout error once elapsed time
exceeds the timeout (first conjunct, regardless of what the poll would have
returned); it aborts immediately with an error on the first status-retrieval
error instead of retrying it (second conjunct); and, sleeping `pollInterval`
between polls, it keeps polling with no upper bound on poll count other than
the timeout (third conjunct: the loop is still running after any number of
in-time, non-completed polls). -/
theorem waitForJobCompletion_spec :
    (∀ (timeout elapsed : Nat) (step : PollStep) (rest : List (Nat × PollStep)),
      timeout < elapsed →
      waitForJobCompletion timeout ((elapsed, step) :: rest) = WaitOutcome.timedOut) ∧
    (∀ (timeout elapsed : Nat) (msg : String) (rest : List (Nat × PollStep)),
      elapsed ≤ timeout →
      waitForJobCompletion timeout ((elapsed, PollStep.err msg) :: rest) =
        WaitOutcome.statusError msg) ∧
    (∀ (timeout : Nat) (trace : List (Nat × PollStep)),
      (∀ e ∈ trace, e.1 ≤ timeout ∧
        ∃ status, e.2 = PollStep.ok status ∧ isJobComplete status = false) →
      waitForJobCompletion timeout trace = WaitOutcome.exhausted) := by
  refine ⟨?_, ?_, ?_⟩
  · intro timeout elapsed step rest h
    simp [waitForJobCompletion, h]
  · intro timeout elapsed msg rest h
    simp [waitForJobCompletion, Nat.not_lt.mpr h]
  · intro timeout trace h
    induction trace with
    | nil => rfl
    | cons a rest ih =>
      obtain ⟨elapsed, step⟩ := a
      obtain ⟨h1, status, h2, h3⟩ := h (elapsed, step) (by simp)
      simp only at h2
      subst h2
      simp only [waitForJobCompletion, Nat.not_lt.mpr h1, if_false, h3, ite_false]
      exact ih (fun x hx => h x (by simp [hx]))

/-- Claim C2 witness: the three conjuncts applied at concrete traces. -/
theorem waitForJobCompletion_spec_witness :
    waitForJobCompletion 5 [(6, PollStep.ok "ACTIVE".data)] = WaitOutcome.timedOut ∧
    waitForJobCompletion 5 [(3, PollStep.err "connection refused")] =
      WaitOutcome.statusError "connection refused" ∧
    waitForJobCompletion 5 [(1, PollStep.ok "ACTIVE".data), (3, PollStep.ok "INPUT".data)] =
      WaitOutcome.exhausted :=
  ⟨waitForJobCompletion_spec.1 5 6 (PollStep.ok "ACTIVE".data) [] (by decide),
    waitForJobCompletion_spec.2.1 5 3 "connection refused" [] (by decide),
    waitForJobCompletion_spec.2.2 5 [(1, PollStep.ok "ACTIVE".data), (3, PollStep.ok "INPUT".data)]
      (by
        intro e he
        rcases List.mem_cons.mp he with he | he
        · subst he
          exact ⟨by decide, "ACTIVE".data, rfl, by decide⟩
        · rcases List.mem_cons.mp he with he | he
          · subst he
            exact ⟨by decide, "INPUT".data, rfl, by decide⟩
          · exact absurd he (List.not_mem_nil e))⟩

/-- Claim C8: `isJobComplete` returns true exactly when the uppercased status
contains one of the seven completion substrings, and the check is insensitive
to the casing of the status argument (uppercasing the argument first does not
change the verdict). -/
theorem isJobComplete_spec (status : List Char) :
    (isJobComplete status = true ↔
      ∃ pat ∈ completedStatuses, strContains (goToUpper status) pat = true) ∧
    isJobComplete (goToUpper status) = isJobComplete status := by
  constructor
  · unfold isJobComplete
    simp [List.any_eq_true]
  · unfold isJobComplete
    rw [goToUpper_idem]

/-- Claim C8 witness: the equivalence applied at a concrete lowercase status
that contains "cc 0000". -/
theorem isJobComplete_spec_witness :
    isJobComplete "job done with cc 0000".data = true ∧
    isJobComplete (goToUpper "job Done with Cc 0000".data) =
      isJobComplete "job Done with Cc 0000".data :=
  ⟨(isJobComplete_spec "job done with cc 0000".data).1.mpr
      ⟨"CC 0000".data, by decide, by decide⟩,
    (isJobComplete_spec "job Done with Cc 0000".data).2⟩

/-- Claim C9: any sequence of `AddHeader`/`RemoveHeader` calls changes only
the session's header mapping: its base URL, HTTP client and profile are
untouched. -/
theorem headerOps_frame (ops : List HeaderOp) (s : Session) :
    (applyHeaderOps s ops).baseURL = s.baseURL ∧
    (applyHeaderOps s ops).httpClient = s.httpClient ∧
    (applyHeaderOps s ops).profile = s.profile := by
  induction ops generalizing s with
  | nil => exact ⟨rfl, rfl, rfl⟩
  | cons op rest ih =>
    cases op with
    | add k v => simpa [applyHeaderOps, Session.AddHeader] using ih (s.AddHeader k v)
    | remove k => simpa [applyHeaderOps, Session.RemoveHeader] using ih (s.RemoveHeader k)

/-- Claim C10: `GetJobOutput` fails only when listing the spool files fails
(first conjunct, with the wrapped error); when the listing succeeds it
returns a map and no error, regardless of how many per-file content fetches
fail, and every entry of the returned map comes from a spool file whose
content fetch succeeded — failing files are silently omitted. -/
theorem getJobOutput_spec :
    (∀ (e : String) (contentResult : Int → Except String String),
      GetJobOutput (Except.error e) contentResult =
        Except.error ("failed to get spool files: " ++ e)) ∧
    (∀ (spoolFiles : List SpoolFile) (contentResult : Int → Except String String),
      ∃ m, GetJobOutput (Except.ok spoolFiles) contentResult = Except.ok m ∧
        ∀ kv ∈ m, ∃ f ∈ spoolFiles, f.ddName = kv.1 ∧ contentResult f.id = Except.ok kv.2) := by
  constructor
  · intro e contentResult
    rfl
  · intro spoolFiles contentResult
    refine ⟨_, rfl, ?_⟩
    intro kv hkv
    rcases getJobOutput_fold_mem contentResult spoolFiles [] kv hkv with h | h
    · exact absurd h (List.not_mem_nil kv)
    · exact h

/-- Claim C10 witness: one failing spool file next to one succeeding one;
the call still succeeds and the failing file's DD name is absent. -/
theorem getJobOutput_spec_witness :
    ∃ m, GetJobOutput (Except.ok [⟨1, "JESMSGLG"⟩, ⟨2, "SYSOUT"⟩])
        (fun i => if i = 1 then Except.error "boom" else Except.ok "HELLO") = Except.ok m ∧
      ∀ kv ∈ m, ∃ f ∈ [(⟨1, "JESMSGLG"⟩ : SpoolFile), ⟨2, "SYSOUT"⟩], f.ddName = kv.1 ∧
        (if f.id = 1 then Except.error "boom" else Except.ok "HELLO") = Except.ok kv.2 :=
  getJobOutput_spec.2 [⟨1, "JESMSGLG"⟩, ⟨2, "SYSOUT"⟩]
    (fun i => if i = 1 then Except.error "boom" else Except.ok "HELLO")

/-- Claim C1: for every profile, the base URL of the session built by
`NewSession` is `{scheme}://{host}{:port when port is nonzero and not 80 and
not 443}{basePath verbatim}`, with the scheme forced to "http" on port 80 or
8080 and defaulting to "https" (or the explicit protocol) otherwise. -/
theorem newSession_baseURL_spec (p : ZOSMFProfile) (s : Session)
    (h : p.NewSession = Except.ok s) : s.baseURL = specBaseURL p := by
  simp only [ZOSMFProfile.NewSession, Except.ok.injEq] at h
  subst h
  have hscheme :
      (if p.port = 80 then "http" else if p.port = 8080 then "http"
        else if p.protocol = "" then "https" else p.protocol) = specScheme p := by
    unfold specScheme
    by_cases h80 : p.port = 80 <;> by_cases h8080 : p.port = 8080 <;>
      simp [h80, h8080]
  dsimp only
  rw [hscheme]
  simp only [specBaseURL, specPortSuffix]
  by_cases hbp : p.basePath = "" <;> by_cases hport : p.port ≠ 0 ∧ p.port ≠ 80 ∧ p.port ≠ 443 <;>
    simp [hbp, hport, String.append_assoc]

/-- Claim C1 witness: the forced-http case at port 8080 with a verbatim base
path, applied through the claim theorem. -/
theorem newSession_baseURL_spec_witness :
    ∃ s : Session,
      ZOSMFProfile.NewSession ⟨"w", "host.example", 8080, "u", "pw", "https", "/api/v1", true⟩ =
        Except.ok s ∧
      s.baseURL = specBaseURL ⟨"w", "host.example", 8080, "u", "pw", "https", "/api/v1", true⟩ ∧
      s.baseURL = "http://host.example:8080/api/v1" := by
  refine ⟨_, rfl, newSession_baseURL_spec _ _ rfl, ?_⟩
  rfl

/-- Claim C4: `SubmitJob` with no job source set fails before issuing any
HTTP request (empty trace, validation error); when a source is chosen the
body carries only the fields of that source (`volume` appears only for
dataset submission, `directory`/`extension` only for local-file submission,
and a statement submission carries exactly the statement); and the accepted
HTTP status codes are exactly 200, 201 and 202. -/
theorem submitJob_spec :
    (∀ (s : Session) (exec : HTTPRequest → HTTPResponse) (r : SubmitJobRequest),
      r.jobStatement = "" → r.jobDataSet = "" → r.jobLocalFile = "" →
      SubmitJob s exec r =
        ([], Except.error "no job source specified (jobStatement, jobDataSet, or jobLocalFile)")) ∧
    (∀ (r : SubmitJobRequest) (body : List (String × String)), buildSubmitBody r = some body →
      ((∃ v, ("volume", v) ∈ body) → r.jobStatement = "" ∧ r.jobDataSet ≠ "") ∧
      ((∃ kv ∈ body, kv.1 = "directory" ∨ kv.1 = "extension") →
        r.jobStatement = "" ∧ r.jobDataSet = "" ∧ r.jobLocalFile ≠ "") ∧
      (r.jobStatement ≠ "" → body = [("jobStatement", r.jobStatement)]) ∧
      (r.jobStatement = "" → r.jobDataSet ≠ "" →
        ∀ kv ∈ body, kv.1 = "jobDataSet" ∨ kv.1 = "volume") ∧
      (r.jobStatement = "" → r.jobDataSet = "" → r.jobLocalFile ≠ "" →
        ∀ kv ∈ body, kv.1 = "jobLocalFile" ∨ kv.1 = "directory" ∨ kv.1 = "extension")) ∧
    (∀ code : Nat, submitStatusSuccess code = true ↔ (code = 200 ∨ code = 201 ∨ code = 202)) := by
  refine ⟨?_, ?_, ?_⟩
  · intro s exec r h1 h2 h3
    simp [SubmitJob, buildSubmitBody, h1, h2, h3]
  · intro r body h
    unfold buildSubmitBody at h
    by_cases hs : r.jobStatement = ""
    · by_cases hd : r.jobDataSet = ""
      · by_cases hl : r.jobLocalFile = ""
        · simp [hs, hd, hl] at h
        · rw [if_neg (by simp [hs]), if_neg (by simp [hd]), if_pos (by simp [hl]),
            Option.some.injEq] at h
          subst h
          refine ⟨?_, ?_, ?_, ?_, ?_⟩
          · rintro ⟨v, hv⟩
            simp at hv
          · intro _
            exact ⟨hs, hd, hl⟩
          · intro hc
            exact absurd hs hc
          · intro _ hc
            exact absurd hd hc
          · intro _ _ _ kv hkv
            simp at hkv
            rcases hkv with hkv | hkv | hkv
            · exact Or.inl (by simp [hkv])
            · exact Or.inr (Or.inl (by simp [hkv.2]))
            · exact Or.inr (Or.inr (by simp [hkv.2]))
      · rw [if_neg (by simp [hs]), if_pos (by simp [hd]), Option.some.injEq] at h
        subst h
        refine ⟨?_, ?_, ?_, ?_, ?_⟩
        · intro _
          exact ⟨hs, hd⟩
        · rintro ⟨kv, hkv, hk⟩
          simp at hkv
          rcases hkv with hkv | hkv
          · rw [hkv] at hk
            simp at hk
          · rw [hkv.2] at hk
            simp at hk
        · intro hc
          exact absurd hs hc
        · intro _ _ kv hkv
          simp at hkv
          rcases hkv with hkv | hkv
          · exact Or.inl (by simp [hkv])
          · exact Or.inr (by simp [hkv.2])
        · intro _ hc
          exact absurd hc hd
    · rw [if_pos (by simp [hs]), Option.some.injEq] at h
      subst h
      refine ⟨?_, ?_, ?_, ?_, ?_⟩
      · rintro ⟨v, hv⟩
        simp at hv
      · rintro ⟨kv, hkv, hk⟩
        simp at hkv
        rw [hkv] at hk
        simp at hk
      · intro _
        rfl
      · intro hc
        exact absurd hc hs
      · intro hc
        exact absurd hc hs
  · intro code
    unfold submitStatusSuccess
    by_cases h0 : code = 200 <;> by_cases h1 : code = 201 <;> by_cases h2 : code = 202 <;>
      simp [h0, h1, h2]

/-- Claim C4 witness: the no-source request issues nothing and fails; a
dataset submission with a volume satisfies the body characterization; the
status-code equivalence at 202. -/
theorem submitJob_spec_witness :
    (∀ exec,
      SubmitJob ⟨⟨"n", "h", 443, "u", "pw", "", "", true⟩, "h", 443, "u", "pw",
          "https://h", ⟨false, 30⟩, defaultHeaders⟩ exec ⟨"", "", "", "", "", ""⟩ =
        ([], Except.error "no job source specified (jobStatement, jobDataSet, or jobLocalFile)")) ∧
    (∀ kv ∈ [("jobDataSet", "USER.JCL"), ("volume", "VOL001")], kv.1 = "jobDataSet" ∨
      kv.1 = "volume") ∧
    (submitStatusSuccess 202 = true ↔ (202 = 200 ∨ 202 = 201 ∨ 202 = 202)) :=
  ⟨fun exec => submitJob_spec.1 _ exec ⟨"", "", "", "", "", ""⟩ rfl rfl rfl,
    (submitJob_spec.2.1 ⟨"", "USER.JCL", "", "VOL001", "", ""⟩
      [("jobDataSet", "USER.JCL"), ("volume", "VOL001")] (by decide)).2.2.2.1 rfl (by decide),
    submitJob_spec.2.2 202⟩

/-- Claim C5: `CopyDataset source target` issues exactly one request; that
request is a PUT (in particular not a POST) addressed to the dataset endpoint
of the target name, and its JSON body carries the `"request": "copy"`
discriminator and names the source dataset as
`"from-dataset": \x7b"dsn": source\x7d`. -/
theorem copyDataset_spec (s : Session) (exec : HTTPRequest → HTTPResponse)
    (sourceName targetName : String) :
    ∃ req, (CopyDataset s exec sourceName targetName).1 = [req] ∧
      req.method = "PUT" ∧
      req.url = s.baseURL ++ "/restfiles/ds" ++ "/" ++ pathEscape targetName ∧
      (∃ fields, req.body = JVal.obj fields ∧
        ("request", JVal.str "copy") ∈ fields ∧
        ("from-dataset", JVal.obj [("dsn", JVal.str sourceName)]) ∈ fields) ∧
      ∀ r ∈ (CopyDataset s exec sourceName targetName).1, r.method ≠ "POST" := by
  refine ⟨_, rfl, rfl, rfl, ⟨_, rfl, by simp, by simp⟩, ?_⟩
  intro r hr
  rcases List.mem_cons.mp hr with hr | hr
  · subst hr
    simp
  · exact absurd hr (List.not_mem_nil r)

/-- Claim C5 witness: the theorem applied at the spec's concrete example,
`copyDataset("SRC","DST")`, on a concrete session. -/
theorem copyDataset_spec_witness :
    ∃ req, (CopyDataset ⟨⟨"n", "h", 443, "u", "pw", "", "", true⟩, "h", 443, "u", "pw",
        "https://h", ⟨false, 30⟩, defaultHeaders⟩ (fun _ => ⟨200, ""⟩) "SRC" "DST").1 = [req] ∧
      req.method = "PUT" ∧
      req.url = "https://h" ++ "/restfiles/ds" ++ "/" ++ pathEscape "DST" ∧
      (∃ fields, req.body = JVal.obj fields ∧
        ("request", JVal.str "copy") ∈ fields ∧
        ("from-dataset", JVal.obj [("dsn", JVal.str "SRC")]) ∈ fields) ∧
      ∀ r ∈ (CopyDataset ⟨⟨"n", "h", 443, "u", "pw", "", "", true⟩, "h", 443, "u", "pw",
        "https://h", ⟨false, 30⟩, defaultHeaders⟩ (fun _ => ⟨200, ""⟩) "SRC" "DST").1,
        r.method ≠ "POST" :=
  copyDataset_spec ⟨⟨"n", "h", 443, "u", "pw", "", "", true⟩, "h", 443, "u", "pw",
    "https://h", ⟨false, 30⟩, defaultHeaders⟩ (fun _ => ⟨200, ""⟩) "SRC" "DST"

/-- Claim C6: every `ListDatasets` call issues exactly one request, whose
`X-IBM-Max-Items` header carries the row limit (the filter's limit when
positive, otherwise "0" for unlimited) and whose query string never carries a
limit (its keys are only `dslevel`, `volser`, `start`); and when the filter
supplies neither a name pattern nor a volume, the `dslevel` query parameter
is `{sessionUser}.*`. -/
theorem listDatasets_spec :
    (∀ (s : Session) (exec : HTTPRequest → HTTPResponse) (filter : Option DatasetFilter),
      ∃ req, (ListDatasets s exec filter).1 = [req] ∧
        req.headers.lookup "X-IBM-Max-Items" =
          some (match filter with
            | some f => if 0 < f.limit then toString f.limit else "0"
            | none => "0") ∧
        ∀ kv ∈ req.query, kv.1 = "dslevel" ∨ kv.1 = "volser" ∨ kv.1 = "start") ∧
    (∀ (s : Session) (exec : HTTPRequest → HTTPResponse) (filter : Option DatasetFilter),
      (filter = none ∨ ∃ f, filter = some f ∧ f.name = "" ∧ f.volume = "") →
      ∃ req, (ListDatasets s exec filter).1 = [req] ∧
        req.query.lookup "dslevel" = some (s.user ++ ".*")) := by
  constructor
  · intro s exec filter
    refine ⟨_, rfl, ?_, ?_⟩
    · rw [lookup_setKV_ne _ _ _ _ (by decide), lookup_setKV_self]
    · intro kv hkv
      rcases filter with _ | f
      · simp at hkv
        simp [hkv]
      · by_cases hname : f.name = "" <;> by_cases hvol : f.volume = "" <;>
          by_cases howner : f.owner = "" <;>
          simp [hname, hvol, howner] at hkv <;>
          rcases hkv with hkv | hkv | hkv | hkv <;> simp_all
  · intro s exec filter hfil
    refine ⟨_, rfl, ?_⟩
    rcases hfil with hfil | ⟨f, hfil, hname, hvol⟩
    · subst hfil
      rfl
    · subst hfil
      by_cases howner : f.owner = "" <;>
        simp [hname, hvol, howner, List.lookup]

/-- Claim C6 witness: the empty filter on a concrete session, applied through
both conjuncts of the claim theorem. -/
theorem listDatasets_spec_witness :
    (∃ req, (ListDatasets ⟨⟨"n", "h", 443, "USER7", "pw", "", "", true⟩, "h", 443, "USER7", "pw",
        "https://h", ⟨false, 30⟩, defaultHeaders⟩ (fun _ => ⟨200, ""⟩)
        (some ⟨"", "", "", "", 0⟩)).1 = [req] ∧
      req.headers.lookup "X-IBM-Max-Items" = some "0" ∧
      ∀ kv ∈ req.query, kv.1 = "dslevel" ∨ kv.1 = "volser" ∨ kv.1 = "start") ∧
    (∃ req, (ListDatasets ⟨⟨"n", "h", 443, "USER7", "pw", "", "", true⟩, "h", 443, "USER7", "pw",
        "https://h", ⟨false, 30⟩, defaultHeaders⟩ (fun _ => ⟨200, ""⟩)
        (some ⟨"", "", "", "", 0⟩)).1 = [req] ∧
      req.query.lookup "dslevel" = some ("USER7" ++ ".*")) :=
  ⟨listDatasets_spec.1 ⟨⟨"n", "h", 443, "USER7", "pw", "", "", true⟩, "h", 443, "USER7", "pw",
      "https://h", ⟨false, 30⟩, defaultHeaders⟩ (fun _ => ⟨200, ""⟩) (some ⟨"", "", "", "", 0⟩),
    listDatasets_spec.2 ⟨⟨"n", "h", 443, "USER7", "pw", "", "", true⟩, "h", 443, "USER7", "pw",
      "https://h", ⟨false, 30⟩, defaultHeaders⟩ (fun _ => ⟨200, ""⟩) (some ⟨"", "", "", "", 0⟩)
      (Or.inr ⟨⟨"", "", "", "", 0⟩, rfl, rfl, rfl⟩)⟩

/-- Claim C7 (code bug): `ListJobs` decoding rejects the object encoding of
the empty job list: for the HTTP 200 body `\x7b"jobs":[]\x7d` the first
(object) parse succeeds with zero jobs, the acceptance guard
`len(jobs) > 0 || body == "\x7b\x7d"` fails, and the array fallback cannot
parse an object, so the call errors — while the bare-array encoding `[]` of
the same empty job sequence succeeds, and an object with a non-empty `jobs`
array also succeeds.  This contradicts the claim that both encodings of
every job sequence, including the empty one, normalize to the same JobList. -/
theorem listJobs_empty_object_decode_error :
    listJobsDecode (JobsBody.objWithJobs "\x7b\"jobs\":[]\x7d" []) =
      Except.error "failed to decode response: \x7b\"jobs\":[]\x7d" ∧
    listJobsDecode (JobsBody.arrBody "[]" []) = Except.ok { jobs := [] } ∧
    listJobsDecode (JobsBody.objWithJobs "\x7b\"jobs\":[\x7b\x7d]\x7d"
        [⟨"JOB00001", "A", "U", "ACTIVE"⟩]) =
      Except.ok { jobs := [⟨"JOB00001", "A", "U", "ACTIVE"⟩] } :=
  ⟨rfl, rfl, rfl⟩

theorem validateDatasetNameChars_iff (s : List Char) :
    validateDatasetNameChars s = Except.ok () ↔ DatasetNameValid s := by
  constructor
  · intro h
    unfold validateDatasetNameChars at h
    split_ifs at h with h1 h2 h3 h4 h5 h6
    all_goals try simp at h
    have hpat : matchesNamePattern s = true := h3
    obtain ⟨-, hhead, htail⟩ := (matchesNamePattern_iff s).mp hpat
    have hascii : ∀ c ∈ s, c.toNat < 128 := by
      intro c hc
      cases s with
      | nil => cases hc
      | cons a as =>
        rcases List.mem_cons.mp hc with rfl | hc'
        · exact isFirstChar_lt_128 c (hhead c rfl)
        · exact isRestChar_lt_128 c (htail c hc')
    have hglen : goLen s = s.length := goLen_ascii s hascii
    have hlen : s.length ≤ 44 := by omega
    refine ⟨h1, hlen, hhead, htail, ?_, ?_, ?_, ?_⟩
    · intro p hp hpc
      exact h4 ((strContains_doubled '.' s).mpr ⟨p, hp, hpc⟩)
    · intro p hp hpc
      exact h6 ((strContains_doubled '-' s).mpr ⟨p, hp, hpc⟩)
    · intro hhd
      apply h5
      rw [Bool.or_eq_true]
      exact Or.inl ((strStarts_single s '.').mpr hhd)
    · intro hlast
      apply h5
      rw [Bool.or_eq_true]
      exact Or.inr ((strEnds_single s '.').mpr hlast)
  · rintro ⟨hne, hlen, hhead, htail, hdot, hhyp, hhd, hlast⟩
    have hpat : matchesNamePattern s = true :=
      (matchesNamePattern_iff s).mpr ⟨hne, hhead, htail⟩
    have hascii : ∀ c ∈ s, c.toNat < 128 := by
      intro c hc
      cases s with
      | nil => cases hc
      | cons a as =>
        rcases List.mem_cons.mp hc with rfl | hc'
        · exact isFirstChar_lt_128 c (hhead c rfl)
        · exact isRestChar_lt_128 c (htail c hc')
    have hglen : goLen s = s.length := goLen_ascii s hascii
    unfold validateDatasetNameChars
    rw [if_neg hne]
    rw [if_neg (show ¬ 44 < goLen s by omega)]
    rw [if_neg (not_not_intro hpat)]
    rw [if_neg (by
      intro hc
      rcases (strContains_doubled '.' s).mp hc with ⟨p, hp, hc1, hc2⟩
      exact hdot p hp ⟨hc1, hc2⟩)]
    rw [if_neg (by
      intro hc
      rcases (Bool.or_eq_true _ _).mp hc with hc | hc
      · exact hhd ((strStarts_single s '.').mp hc)
      · exact hlast ((strEnds_single s '.').mp hc))]
    rw [if_neg (by
      intro hc
      rcases (strContains_doubled '-' s).mp hc with ⟨p, hp, hc1, hc2⟩
      exact hhyp p hp ⟨hc1, hc2⟩)]

/-- Claim C3: `ValidateDatasetName` succeeds exactly on the names that are
non-empty, at most 44 characters long, start with a character among A-Z, @,
#, $, continue with characters among A-Z, 0-9, @, #, $, hyphen, period,
contain no consecutive periods and no consecutive hyphens, and neither start
nor end with a period; and every violation yields a validation error (with
its human-readable reason), the function making no network call by
construction. -/
theorem validateDatasetName_spec (name : String) :
    (ValidateDatasetName name = Except.ok () ↔ DatasetNameValid name.data) ∧
    (¬ DatasetNameValid name.data → ∃ msg, ValidateDatasetName name = Except.error msg) := by
  have h := validateDatasetNameChars_iff name.data
  refine ⟨h, ?_⟩
  intro hbad
  cases hv : ValidateDatasetName name with
  | ok u =>
    cases u
    exact absurd (h.mp hv) hbad
  | error e => exact ⟨e, rfl⟩

/-- Claim C3 witness: a valid name accepted and an invalid one (leading
digit) rejected, through the claim theorem. -/
theorem validateDatasetName_spec_witness :
    ValidateDatasetName "MY.DATA.SET" = Except.ok () ∧
    ∃ msg, ValidateDatasetName "9BAD" = Except.error msg :=
  ⟨(validateDatasetName_spec "MY.DATA.SET").1.mpr (by decide),
    (validateDatasetName_spec "9BAD").2 (by decide)⟩

end ZoweSDK
